import Mathlib

/-!
Verification of the circulation (transaction lifecycle) engine of the
library-management backend.

The embedding models, from the source:
  * the Mongoose `Transaction` schema with its `checkOverdue` and
    `calculateFine` methods (transaction model file);
  * the `Book` schema's copy counters and its pre-save guard
    `availableCopies ≤ totalCopies` (src/models/Book.js);
  * the `Student` schema's membership counters (src/models/Student.js);
  * the four circulation endpoints of the transactions router:
    POST /issue, POST /return, POST /renew and the overdue sweep performed
    by GET /meta/overdue.

Dates are milliseconds since the epoch (integers); `new Date()` becomes an
explicit `now : Int` parameter.  The document store is an association list
keyed by ids (Mongo ids are unique, so `findOne {_id, status}` is modelled
as lookup-by-id followed by the status test).  Inert string metadata
(titles, names, notes, staff ids) is omitted: no modelled operation branches
on it.  Fallible routes return the optional error together with the
resulting state, so that partial mutation on failure is observable.
-/

namespace LibraryCirculation

/-- Loan status enum of the Transaction schema. -/
inductive TxnStatus
  | active | returned | overdue | lost
deriving DecidableEq, Repr

/-- Transaction `type` enum: the action that produced the current revision. -/
inductive TxnType
  | issue | ret | renew
deriving DecidableEq, Repr

/-- `fine.reason` enum of the Transaction schema. -/
inductive FineReason
  | noneReason | overdueReason | damageReason | lostReason
deriving DecidableEq, Repr

/-- Student `status` enum (src/models/Student.js). -/
inductive StudentStatus
  | active | inactive | graduated
deriving DecidableEq, Repr

/-- The embedded `fine` sub-document of a transaction. -/
structure Fine where
  amount : Int
  reason : FineReason
  paid : Bool
deriving DecidableEq, Repr

/-- Book record: only the fields the circulation engine reads or writes. -/
structure Book where
  totalCopies : Int
  availableCopies : Int
  isActive : Bool
deriving DecidableEq, Repr

/-- Student record: only the fields the circulation engine reads or writes. -/
structure Student where
  status : StudentStatus
  maxBooksAllowed : Int
  currentBooksIssued : Int
deriving DecidableEq, Repr

/-- Transaction (loan) record. -/
structure Transaction where
  book : Nat
  student : Nat
  ttype : TxnType
  issueDate : Int
  dueDate : Int
  returnDate : Option Int
  status : TxnStatus
  fine : Fine
  renewalCount : Int
deriving DecidableEq, Repr

/-- One day in milliseconds, the divisor used by `calculateFine`. -/
def dayMs : Int := 86400000

/-- The hardcoded fine rate: `overdueDays * 2` (2 currency units per day). -/
def ratePerDay : Int := 2

/-- `Math.ceil(diff / 86400000)` on an exact millisecond difference;
for a positive divisor, `Int` division is floor division, so adding
`dayMs - 1` first yields the ceiling. -/
def ceilDays (diff : Int) : Int := (diff + dayMs - 1) / dayMs

/-- `this.returnDate || new Date()` in `calculateFine`. -/
def settlementDate (t : Transaction) (now : Int) : Int := t.returnDate.getD now

/-- `TransactionSchema.methods.checkOverdue`: an active loan past its due
date moves to `overdue`. -/
def checkOverdue (t : Transaction) (now : Int) : Transaction :=
  if t.status = .active ∧ t.dueDate < now then { t with status := .overdue } else t

/-- `TransactionSchema.methods.calculateFine`: for an `overdue` or
`returned` loan, recompute the overdue days from the settlement date and,
when positive, overwrite `fine.amount` with `overdueDays * 2` and set
`fine.reason`; otherwise leave the fine untouched. -/
def calculateFine (t : Transaction) (now : Int) : Transaction :=
  if t.status = .overdue ∨ t.status = .returned then
    if 0 < ceilDays (settlementDate t now - t.dueDate) then
      { t with fine := { t.fine with
          amount := ceilDays (settlementDate t now - t.dueDate) * ratePerDay,
          reason := .overdueReason } }
    else t
  else t

/-- Association-list lookup by id (first match). -/
def alookup {α : Type} (k : Nat) : List (Nat × α) → Option α
  | [] => none
  | e :: rest => if e.1 = k then some e.2 else alookup k rest

/-- Association-list update of the first entry with the given id. -/
def aupdate {α : Type} (k : Nat) (v : α) : List (Nat × α) → List (Nat × α)
  | [] => []
  | e :: rest => if e.1 = k then (e.1, v) :: rest else e :: aupdate k v rest

/-- Predicate of the duplicate-issue check and the per-book counting:
the transaction is an active loan of the given book. -/
def isActiveForBook (bid : Nat) (t : Transaction) : Bool :=
  decide (t.book = bid ∧ t.status = .active)

/-- Predicate of the quota check: the transaction is an active loan held
by the given student. -/
def isActiveForStudent (sid : Nat) (t : Transaction) : Bool :=
  decide (t.student = sid ∧ t.status = .active)

/-- `Transaction.countDocuments {book: bid, status: 'active'}`. -/
def countBk (bid : Nat) (l : List (Nat × Transaction)) : Nat :=
  l.countP (fun e => isActiveForBook bid e.2)

/-- `Transaction.countDocuments {student: sid, status: 'active'}`. -/
def countStu (sid : Nat) (l : List (Nat × Transaction)) : Nat :=
  l.countP (fun e => isActiveForStudent sid e.2)

/-- `Transaction.findOne {book, student, status: 'active'}` (existence). -/
def hasActivePair (bid sid : Nat) (l : List (Nat × Transaction)) : Bool :=
  l.any (fun e => decide (e.2.book = bid ∧ e.2.student = sid ∧ e.2.status = .active))

/-- Error outcomes of the circulation routes.  `serverError` stands for a
thrown exception reaching the error middleware (HTTP 500), e.g. a failed
`book.save()` whose pre-save guard rejects `availableCopies > totalCopies`. -/
inductive ApiError
  | notFound | outOfStock | duplicateActiveLoan | quotaExceeded
  | renewalLimitReached | serverError
deriving DecidableEq, Repr

/-- The persistent state the circulation routes read and write. -/
structure LibraryState where
  books : List (Nat × Book)
  students : List (Nat × Student)
  txns : List (Nat × Transaction)
  nextId : Nat
deriving DecidableEq, Repr

/-- POST /api/transactions/issue.  Checks, in source order: book exists and
is active; `availableCopies > 0`; student exists with status `active`; no
active loan of the same (book, student) pair; active-loan count below
`maxBooksAllowed`.  Then creates the transaction (dueDate = now + 14 days),
decrements the book's `availableCopies` (the Book pre-save guard can still
reject the save) and increments the student's `currentBooksIssued`. -/
def issueRoute (bookId studentId : Nat) (now : Int) (st : LibraryState) :
    Option ApiError × LibraryState :=
  match alookup bookId st.books with
  | none => (some .notFound, st)
  | some b =>
    if b.isActive = false then (some .notFound, st)
    else if b.availableCopies ≤ 0 then (some .outOfStock, st)
    else
      match alookup studentId st.students with
      | none => (some .notFound, st)
      | some s =>
        if ¬ s.status = .active then (some .notFound, st)
        else if hasActivePair bookId studentId st.txns then (some .duplicateActiveLoan, st)
        else if s.maxBooksAllowed ≤ (countStu studentId st.txns : Int) then
          (some .quotaExceeded, st)
        else
          let newTxn : Transaction :=
            { book := bookId, student := studentId, ttype := .issue,
              issueDate := now, dueDate := now + 14 * dayMs, returnDate := none,
              status := .active,
              fine := { amount := 0, reason := .noneReason, paid := false },
              renewalCount := 0 }
          let txns2 := st.txns ++ [(st.nextId, newTxn)]
          if b.totalCopies < b.availableCopies - 1 then
            (some .serverError, { st with txns := txns2, nextId := st.nextId + 1 })
          else
            let books2 := aupdate bookId
              { b with availableCopies := b.availableCopies - 1 } st.books
            let students2 := aupdate studentId
              { s with currentBooksIssued := s.currentBooksIssued + 1 } st.students
            (none, { st with books := books2, students := students2,
                             txns := txns2, nextId := st.nextId + 1 })

/-- POST /api/transactions/return.  `findOne {_id, status: 'active'}`; on a
hit, sets type/returnDate/status, runs `calculateFine` and saves the
transaction, then increments the book's `availableCopies` (the lookup of a
missing book or a rejected Book save surfaces as a 500 after the
transaction was already saved), then decrements the student's
`currentBooksIssued` when the student exists and the counter is positive. -/
def returnRoute (txnId : Nat) (now : Int) (st : LibraryState) :
    Option ApiError × LibraryState :=
  match alookup txnId st.txns with
  | none => (some .notFound, st)
  | some t =>
    if ¬ t.status = .active then (some .notFound, st)
    else
      let t2 := calculateFine
        { t with ttype := .ret, returnDate := some now, status := .returned } now
      let txns2 := aupdate txnId t2 st.txns
      match alookup t.book st.books with
      | none => (some .serverError, { st with txns := txns2 })
      | some b =>
        if b.totalCopies < b.availableCopies + 1 then
          (some .serverError, { st with txns := txns2 })
        else
          let books2 := aupdate t.book
            { b with availableCopies := b.availableCopies + 1 } st.books
          match alookup t.student st.students with
          | none => (none, { st with txns := txns2, books := books2 })
          | some s =>
            if 0 < s.currentBooksIssued then
              let students2 := aupdate t.student
                { s with currentBooksIssued := s.currentBooksIssued - 1 } st.students
              (none, { st with txns := txns2, books := books2, students := students2 })
            else (none, { st with txns := txns2, books := books2 })

/-- POST /api/transactions/renew.  `findOne {_id, status: 'active'}`;
rejects when `renewalCount >= 3`; otherwise increments `renewalCount` and
sets `dueDate = now + 14 days`.  Inventory and membership are untouched. -/
def renewRoute (txnId : Nat) (now : Int) (st : LibraryState) :
    Option ApiError × LibraryState :=
  match alookup txnId st.txns with
  | none => (some .notFound, st)
  | some t =>
    if ¬ t.status = .active then (some .notFound, st)
    else if 3 ≤ t.renewalCount then (some .renewalLimitReached, st)
    else
      let t2 : Transaction :=
        { t with renewalCount := t.renewalCount + 1, dueDate := now + 14 * dayMs }
      (none, { st with txns := aupdate txnId t2 st.txns })

/-- Per-transaction effect of the overdue sweep: on the loans matched by
`find {status: 'active', dueDate: {$lt: now}}` run `checkOverdue` then
`calculateFine` and save; every other loan is untouched. -/
def sweepOne (now : Int) (t : Transaction) : Transaction :=
  if t.status = .active ∧ t.dueDate < now then
    calculateFine (checkOverdue t now) now
  else t

/-- GET /api/transactions/meta/overdue: the overdue sweep. -/
def sweepOverdue (now : Int) (st : LibraryState) : LibraryState :=
  { st with txns := st.txns.map (fun e => (e.1, sweepOne now e.2)) }

/-- A circulation event, for reasoning about sequences of operations. -/
inductive Op
  | issue (bookId studentId : Nat) (now : Int)
  | ret (txnId : Nat) (now : Int)
  | renew (txnId : Nat) (now : Int)
  | sweep (now : Int)
deriving DecidableEq, Repr

/-- Whether the event is the overdue sweep. -/
def Op.isSweep : Op → Bool
  | .sweep _ => true
  | _ => false

/-- Applying one circulation event to the state (a failed request leaves
whatever state the route left behind). -/
def applyOp (st : LibraryState) : Op → LibraryState
  | .issue b s now => (issueRoute b s now st).2
  | .ret id now => (returnRoute id now st).2
  | .renew id now => (renewRoute id now st).2
  | .sweep now => sweepOverdue now st

/-- Applying a sequence of circulation events. -/
def run (st : LibraryState) : List Op → LibraryState
  | [] => st
  | op :: ops => run (applyOp st op) ops

/-- Inventory consistency: every book has a non-negative `availableCopies`
and its available copies plus its active loans never exceed `totalCopies`. -/
def bookConsistent (st : LibraryState) : Prop :=
  ∀ id b, alookup id st.books = some b →
    0 ≤ b.availableCopies ∧
    b.availableCopies + (countBk id st.txns : Int) ≤ b.totalCopies

/-- Membership consistency: every student's `currentBooksIssued` equals the
number of loans with status `active` held by that student, and stays within
`maxBooksAllowed`. -/
def studentConsistent (st : LibraryState) : Prop :=
  ∀ id s, alookup id st.students = some s →
    s.currentBooksIssued = (countStu id st.txns : Int) ∧
    s.currentBooksIssued ≤ s.maxBooksAllowed

/-- Referential consistency: every active loan refers to a book present in
the catalog. -/
def booksPresent (st : LibraryState) : Prop :=
  ∀ id t, alookup id st.txns = some t → t.status = .active →
    (alookup t.book st.books).isSome = true

/-- The conjunction of the three consistency conditions. -/
def consistentState (st : LibraryState) : Prop :=
  bookConsistent st ∧ studentConsistent st ∧ booksPresent st

/-! ### Association-list lemmas -/

theorem alookup_mem {α : Type} {k : Nat} {v : α} :
    ∀ {l : List (Nat × α)}, alookup k l = some v → (k, v) ∈ l := by
  intro l
  induction l with
  | nil => intro h; simp [alookup] at h
  | cons e rest ih =>
    intro h
    by_cases he : e.1 = k
    · simp only [alookup, he, if_pos, Option.some.injEq] at h
      subst h
      rw [← he]
      exact List.mem_cons_self e rest
    · simp only [alookup, he, if_neg, if_false] at h
      exact List.mem_cons_of_mem _ (ih h)

theorem aupdate_of_alookup_none {α : Type} {k : Nat} (v : α) :
    ∀ {l : List (Nat × α)}, alookup k l = none → aupdate k v l = l := by
  intro l
  induction l with
  | nil => intro _; rfl
  | cons e rest ih =>
    intro h
    by_cases he : e.1 = k
    · simp [alookup, he] at h
    · simp only [alookup, he, if_neg, if_false] at h
      simp [aupdate, he, ih h]

theorem alookup_aupdate_self {α : Type} {k : Nat} (v : α) {w : α} :
    ∀ {l : List (Nat × α)}, alookup k l = some w →
      alookup k (aupdate k v l) = some v := by
  intro l
  induction l with
  | nil => intro h; simp [alookup] at h
  | cons e rest ih =>
    intro h
    by_cases he : e.1 = k
    · simp [aupdate, he, alookup]
    · simp only [alookup, he, if_neg, if_false] at h
      simp [aupdate, he, alookup, ih h]

theorem alookup_aupdate_other {α : Type} {k k2 : Nat} (v : α) (h : ¬ k2 = k) :
    ∀ (l : List (Nat × α)), alookup k (aupdate k2 v l) = alookup k l := by
  intro l
  induction l with
  | nil => rfl
  | cons e rest ih =>
    simp only [aupdate]
    by_cases he : e.1 = k2
    · rw [if_pos he]
      have hek : ¬ e.1 = k := by rw [he]; exact h
      show (if e.1 = k then some v else alookup k rest)
        = if e.1 = k then some e.2 else alookup k rest
      rw [if_neg hek, if_neg hek]
    · rw [if_neg he]
      show (if e.1 = k then some e.2 else alookup k (aupdate k2 v rest))
        = if e.1 = k then some e.2 else alookup k rest
      rw [ih]

theorem alookup_aupdate_isSome {α : Type} {k k2 : Nat} (v : α)
    (l : List (Nat × α)) :
    (alookup k (aupdate k2 v l)).isSome = (alookup k l).isSome := by
  by_cases hk : k2 = k
  · subst hk
    cases h : alookup k2 l with
    | none => rw [aupdate_of_alookup_none v h, h]
    | some w => rw [alookup_aupdate_self v h]; rfl
  · rw [alookup_aupdate_other v hk]

theorem alookup_append_single {α : Type} (k : Nat) (k2 : Nat) (v : α) :
    ∀ (l : List (Nat × α)), alookup k (l ++ [(k2, v)]) =
      match alookup k l with
      | some w => some w
      | none => if k2 = k then some v else none := by
  intro l
  induction l with
  | nil => simp [alookup]
  | cons e rest ih =>
    by_cases he : e.1 = k
    · simp [alookup, he]
    · simp [alookup, he, ih]

theorem alookup_map_value {α β : Type} (f : α → β) (k : Nat) :
    ∀ (l : List (Nat × α)),
      alookup k (l.map (fun e => (e.1, f e.2))) = (alookup k l).map f := by
  intro l
  induction l with
  | nil => rfl
  | cons e rest ih =>
    by_cases he : e.1 = k
    · simp [alookup, he]
    · simp [alookup, he, ih]

theorem countP_aupdate {α : Type} (p : α → Bool) {k : Nat} {v : α} (w : α) :
    ∀ {l : List (Nat × α)}, alookup k l = some v →
      (aupdate k w l).countP (fun e => p e.2) + (if p v then 1 else 0)
        = l.countP (fun e => p e.2) + (if p w then 1 else 0) := by
  intro l
  induction l with
  | nil => intro h; simp [alookup] at h
  | cons e rest ih =>
    intro h
    by_cases he : e.1 = k
    · simp only [alookup, he, if_pos, Option.some.injEq] at h
      subst h
      simp only [aupdate, he, if_pos, List.countP_cons]
      omega
    · simp only [alookup, he, if_neg, if_false] at h
      simp only [aupdate, he, if_neg, if_false, List.countP_cons]
      have := ih h
      omega

theorem countP_append_single {α : Type} (p : α → Bool) (l : List (Nat × α))
    (k : Nat) (v : α) :
    (l ++ [(k, v)]).countP (fun e => p e.2)
      = l.countP (fun e => p e.2) + (if p v then 1 else 0) := by
  rw [List.countP_append]
  simp [List.countP_cons]

theorem countP_pos_of_alookup {α : Type} (p : α → Bool) {k : Nat} {v : α}
    {l : List (Nat × α)} (h : alookup k l = some v) (hp : p v = true) :
    1 ≤ l.countP (fun e => p e.2) := by
  have hm : (k, v) ∈ l := alookup_mem h
  have : 0 < l.countP (fun e => p e.2) :=
    List.countP_pos_iff.mpr ⟨(k, v), hm, hp⟩
  omega

/-! ### Arithmetic lemmas about `ceilDays` -/

theorem ceilDays_mono {a b : Int} (h : a ≤ b) : ceilDays a ≤ ceilDays b := by
  unfold ceilDays
  exact Int.ediv_le_ediv (by unfold dayMs; omega) (by omega)

theorem ceilDays_pos {a : Int} (h : 0 < a) : 1 ≤ ceilDays a := by
  unfold ceilDays
  rw [Int.le_ediv_iff_mul_le (by unfold dayMs; omega)]
  unfold dayMs
  omega

theorem ceilDays_nonpos {a : Int} (h : a ≤ 0) : ceilDays a ≤ 0 := by
  unfold ceilDays
  have h1 : (a + dayMs - 1) / dayMs < 1 := by
    rw [Int.ediv_lt_iff_lt_mul (by unfold dayMs; omega)]
    unfold dayMs
    omega
  omega

/-! ### Projection lemmas for `calculateFine`, `checkOverdue`, `sweepOne` -/

theorem calculateFine_book (t : Transaction) (now : Int) :
    (calculateFine t now).book = t.book := by
  unfold calculateFine
  split
  · split <;> rfl
  · rfl

theorem calculateFine_student (t : Transaction) (now : Int) :
    (calculateFine t now).student = t.student := by
  unfold calculateFine
  split
  · split <;> rfl
  · rfl

theorem calculateFine_status (t : Transaction) (now : Int) :
    (calculateFine t now).status = t.status := by
  unfold calculateFine
  split
  · split <;> rfl
  · rfl

theorem calculateFine_dueDate (t : Transaction) (now : Int) :
    (calculateFine t now).dueDate = t.dueDate := by
  unfold calculateFine
  split
  · split <;> rfl
  · rfl

theorem calculateFine_returnDate (t : Transaction) (now : Int) :
    (calculateFine t now).returnDate = t.returnDate := by
  unfold calculateFine
  split
  · split <;> rfl
  · rfl

theorem isActiveForBook_iff {bid : Nat} {t : Transaction} :
    isActiveForBook bid t = true ↔ (t.book = bid ∧ t.status = .active) := by
  simp [isActiveForBook]

theorem isActiveForStudent_iff {sid : Nat} {t : Transaction} :
    isActiveForStudent sid t = true ↔ (t.student = sid ∧ t.status = .active) := by
  simp [isActiveForStudent]

theorem isActiveForBook_false_of_status {bid : Nat} {t : Transaction}
    (h : ¬ t.status = .active) : isActiveForBook bid t = false := by
  simp [isActiveForBook, h]

theorem isActiveForBook_false_of_book {bid : Nat} {t : Transaction}
    (h : ¬ t.book = bid) : isActiveForBook bid t = false := by
  simp [isActiveForBook, h]

theorem isActiveForStudent_false_of_status {sid : Nat} {t : Transaction}
    (h : ¬ t.status = .active) : isActiveForStudent sid t = false := by
  simp [isActiveForStudent, h]

theorem isActiveForStudent_false_of_student {sid : Nat} {t : Transaction}
    (h : ¬ t.student = sid) : isActiveForStudent sid t = false := by
  simp [isActiveForStudent, h]

theorem checkOverdue_status (t : Transaction) (now : Int) :
    (checkOverdue t now).status
      = if t.status = .active ∧ t.dueDate < now then .overdue else t.status := by
  unfold checkOverdue
  split <;> rfl

theorem checkOverdue_book (t : Transaction) (now : Int) :
    (checkOverdue t now).book = t.book := by
  unfold checkOverdue
  split <;> rfl

theorem checkOverdue_student (t : Transaction) (now : Int) :
    (checkOverdue t now).student = t.student := by
  unfold checkOverdue
  split <;> rfl

theorem checkOverdue_dueDate (t : Transaction) (now : Int) :
    (checkOverdue t now).dueDate = t.dueDate := by
  unfold checkOverdue
  split <;> rfl

theorem checkOverdue_returnDate (t : Transaction) (now : Int) :
    (checkOverdue t now).returnDate = t.returnDate := by
  unfold checkOverdue
  split <;> rfl

theorem sweepOne_activeForBook {id : Nat} {now : Int} {t : Transaction}
    (h : isActiveForBook id (sweepOne now t) = true) :
    isActiveForBook id t = true := by
  unfold sweepOne at h
  split at h
  · rename_i hg
    exfalso
    have hstat : (calculateFine (checkOverdue t now) now).status = TxnStatus.overdue := by
      rw [calculateFine_status, checkOverdue_status, if_pos hg]
    have hact := (isActiveForBook_iff.mp h).2
    rw [hstat] at hact
    exact absurd hact (by decide)
  · exact h

/-! ### Preservation of inventory consistency by every circulation event -/

theorem bookConsistent_issueRoute (bid sid : Nat) (now : Int) {st : LibraryState}
    (h : bookConsistent st) : bookConsistent (issueRoute bid sid now st).2 := by
  unfold issueRoute
  split
  · exact h
  · rename_i b hb
    split
    · exact h
    · split
      · exact h
      · rename_i hbact havail
        split
        · exact h
        · rename_i s hs
          split
          · exact h
          · split
            · exact h
            · split
              · exact h
              · rename_i hsact hdup hquota
                dsimp only
                split
                · rename_i hov
                  exfalso
                  have hinv := h bid b hb
                  omega
                · rename_i hov
                  intro id bb hbb
                  dsimp only at hbb ⊢
                  by_cases hid : id = bid
                  · subst hid
                    rw [alookup_aupdate_self _ hb] at hbb
                    injection hbb with hbb2
                    subst hbb2
                    have hinv := h id b hb
                    have hnew : isActiveForBook id
                        { book := id, student := sid, ttype := .issue,
                          issueDate := now, dueDate := now + 14 * dayMs,
                          returnDate := none, status := .active,
                          fine := { amount := 0, reason := .noneReason, paid := false },
                          renewalCount := 0 } = true := by
                      simp [isActiveForBook]
                    unfold countBk
                    rw [countP_append_single, hnew, if_pos rfl]
                    dsimp only
                    unfold countBk at hinv
                    constructor
                    · omega
                    · push_cast
                      omega
                  · have hbid : ¬ bid = id := fun hc => hid hc.symm
                    rw [alookup_aupdate_other _ hbid] at hbb
                    have hinv := h id bb hbb
                    have hnew : isActiveForBook id
                        { book := bid, student := sid, ttype := .issue,
                          issueDate := now, dueDate := now + 14 * dayMs,
                          returnDate := none, status := .active,
                          fine := { amount := 0, reason := .noneReason, paid := false },
                          renewalCount := 0 } = false := by
                      simp [isActiveForBook, hbid]
                    unfold countBk
                    rw [countP_append_single, hnew, if_neg (by decide)]
                    unfold countBk at hinv
                    constructor
                    · omega
                    · push_cast
                      omega

theorem countBk_return_aupdate {tid : Nat} {t : Transaction}
    {l : List (Nat × Transaction)} (ht : alookup tid l = some t)
    (htact : t.status = .active) (now : Int) (id : Nat) :
    countBk id (aupdate tid (calculateFine
        { t with ttype := .ret, returnDate := some now, status := .returned } now) l)
      + (if t.book = id then 1 else 0) = countBk id l := by
  have hmain := countP_aupdate (isActiveForBook id)
    (calculateFine { t with ttype := .ret, returnDate := some now, status := .returned } now) ht
  have ht2f : isActiveForBook id (calculateFine
      { t with ttype := .ret, returnDate := some now, status := .returned } now) = false :=
    isActiveForBook_false_of_status (by rw [calculateFine_status]; simp)
  rw [ht2f] at hmain
  unfold countBk
  by_cases hid : t.book = id
  · have hT : isActiveForBook id t = true := isActiveForBook_iff.mpr ⟨hid, htact⟩
    rw [hT] at hmain
    simp at hmain
    rw [if_pos hid]
    exact hmain
  · have hF : isActiveForBook id t = false := isActiveForBook_false_of_book hid
    rw [hF] at hmain
    simp at hmain
    rw [if_neg hid]
    omega

theorem bookConsistent_return_noBook {st : LibraryState} (h : bookConsistent st)
    {tid : Nat} {t : Transaction} (ht : alookup tid st.txns = some t)
    (htact : t.status = .active) (now : Int) (ss : List (Nat × Student)) (nid : Nat) :
    bookConsistent
      { books := st.books, students := ss,
        txns := aupdate tid (calculateFine
          { t with ttype := .ret, returnDate := some now, status := .returned } now) st.txns,
        nextId := nid } := by
  intro id bb hbb
  dsimp only at hbb ⊢
  have hinv := h id bb hbb
  have hc := countBk_return_aupdate ht htact now id
  by_cases hid : t.book = id
  · rw [if_pos hid] at hc
    omega
  · rw [if_neg hid] at hc
    omega

theorem bookConsistent_return_withBook {st : LibraryState} (h : bookConsistent st)
    {tid : Nat} {t : Transaction} (ht : alookup tid st.txns = some t)
    (htact : t.status = .active) {b : Book} (hbk : alookup t.book st.books = some b)
    (now : Int) (ss : List (Nat × Student)) (nid : Nat) :
    bookConsistent
      { books := aupdate t.book
          { b with availableCopies := b.availableCopies + 1 } st.books,
        students := ss,
        txns := aupdate tid (calculateFine
          { t with ttype := .ret, returnDate := some now, status := .returned } now) st.txns,
        nextId := nid } := by
  intro id bb hbb
  dsimp only at hbb ⊢
  have hc := countBk_return_aupdate ht htact now id
  by_cases hid : t.book = id
  · subst hid
    rw [alookup_aupdate_self _ hbk] at hbb
    injection hbb with hbb2
    subst hbb2
    have hinv := h t.book b hbk
    simp at hc
    dsimp only
    omega
  · rw [alookup_aupdate_other _ hid] at hbb
    have hinv := h id bb hbb
    rw [if_neg hid] at hc
    omega

theorem bookConsistent_returnRoute (tid : Nat) (now : Int) {st : LibraryState}
    (h : bookConsistent st) : bookConsistent (returnRoute tid now st).2 := by
  unfold returnRoute
  split
  · exact h
  · rename_i t ht
    split
    · exact h
    · rename_i hact
      have htact : t.status = .active := not_not.mp hact
      dsimp only
      split
      · rename_i hbknone
        exact bookConsistent_return_noBook h ht htact now st.students st.nextId
      · rename_i b hbk
        split
        · rename_i hov
          exfalso
          have hinv := h t.book b hbk
          have hone : 1 ≤ countBk t.book st.txns :=
            countP_pos_of_alookup (isActiveForBook t.book) ht
              (isActiveForBook_iff.mpr ⟨rfl, htact⟩)
          omega
        · rename_i hov
          split
          · exact bookConsistent_return_withBook h ht htact hbk now st.students st.nextId
          · rename_i s hstu
            split
            · exact bookConsistent_return_withBook h ht htact hbk now _ st.nextId
            · exact bookConsistent_return_withBook h ht htact hbk now st.students st.nextId

theorem bookConsistent_renewRoute (tid : Nat) (now : Int) {st : LibraryState}
    (h : bookConsistent st) : bookConsistent (renewRoute tid now st).2 := by
  unfold renewRoute
  split
  · exact h
  · rename_i t ht
    split
    · exact h
    · split
      · exact h
      · dsimp only
        intro id bb hbb
        dsimp only at hbb ⊢
        have hinv := h id bb hbb
        have hc := countP_aupdate (isActiveForBook id)
          ({ t with renewalCount := t.renewalCount + 1, dueDate := now + 14 * dayMs }) ht
        have hsame : isActiveForBook id
            { t with renewalCount := t.renewalCount + 1, dueDate := now + 14 * dayMs }
            = isActiveForBook id t := rfl
        rw [hsame] at hc
        unfold countBk at hinv ⊢
        omega

theorem countBk_sweep_le (now : Int) (id : Nat) (l : List (Nat × Transaction)) :
    countBk id (l.map (fun e => (e.1, sweepOne now e.2))) ≤ countBk id l := by
  unfold countBk
  rw [List.countP_map]
  apply List.countP_mono_left
  intro e _ hp
  simp only [Function.comp] at hp
  exact sweepOne_activeForBook hp

theorem bookConsistent_sweepOverdue (now : Int) {st : LibraryState}
    (h : bookConsistent st) : bookConsistent (sweepOverdue now st) := by
  intro id bb hbb
  unfold sweepOverdue at hbb ⊢
  dsimp only at hbb ⊢
  have hinv := h id bb hbb
  have hle := countBk_sweep_le now id st.txns
  omega

theorem bookConsistent_applyOp (op : Op) {st : LibraryState}
    (h : bookConsistent st) : bookConsistent (applyOp st op) := by
  cases op with
  | issue b s now => exact bookConsistent_issueRoute b s now h
  | ret id now => exact bookConsistent_returnRoute id now h
  | renew id now => exact bookConsistent_renewRoute id now h
  | sweep now => exact bookConsistent_sweepOverdue now h

theorem bookConsistent_run (ops : List Op) {st : LibraryState}
    (h : bookConsistent st) : bookConsistent (run st ops) := by
  induction ops generalizing st with
  | nil => exact h
  | cons op rest ih => exact ih (bookConsistent_applyOp op h)

/-! ### Preservation of membership and referential consistency
(issue, return and renew; the sweep deliberately excluded, see the C3
counterexample) -/

theorem alookup_append_of_some {α : Type} {k : Nat} {l : List (Nat × α)} {w : α}
    (h : alookup k l = some w) (k2 : Nat) (v : α) :
    alookup k (l ++ [(k2, v)]) = some w := by
  induction l with
  | nil => simp [alookup] at h
  | cons e rest ih =>
    by_cases he : e.1 = k
    · simp only [alookup, he, if_pos] at h ⊢
      exact h
    · simp only [alookup, he, if_neg, if_false] at h ⊢
      exact ih h

theorem alookup_append_of_none {α : Type} {k : Nat} {l : List (Nat × α)}
    (h : alookup k l = none) (k2 : Nat) (v : α) :
    alookup k (l ++ [(k2, v)]) = if k2 = k then some v else none := by
  induction l with
  | nil => simp [alookup]
  | cons e rest ih =>
    by_cases he : e.1 = k
    · simp [alookup, he] at h
    · simp only [alookup, he, if_neg, if_false] at h ⊢
      exact ih h

theorem countStu_return_aupdate {tid : Nat} {t : Transaction}
    {l : List (Nat × Transaction)} (ht : alookup tid l = some t)
    (htact : t.status = .active) (now : Int) (id : Nat) :
    countStu id (aupdate tid (calculateFine
        { t with ttype := .ret, returnDate := some now, status := .returned } now) l)
      + (if t.student = id then 1 else 0) = countStu id l := by
  have hmain := countP_aupdate (isActiveForStudent id)
    (calculateFine { t with ttype := .ret, returnDate := some now, status := .returned } now) ht
  have ht2f : isActiveForStudent id (calculateFine
      { t with ttype := .ret, returnDate := some now, status := .returned } now) = false :=
    isActiveForStudent_false_of_status (by rw [calculateFine_status]; simp)
  rw [ht2f] at hmain
  unfold countStu
  by_cases hid : t.student = id
  · have hT : isActiveForStudent id t = true := isActiveForStudent_iff.mpr ⟨hid, htact⟩
    rw [hT] at hmain
    simp at hmain
    rw [if_pos hid]
    exact hmain
  · have hF : isActiveForStudent id t = false := isActiveForStudent_false_of_student hid
    rw [hF] at hmain
    simp at hmain
    rw [if_neg hid]
    omega

theorem countStu_pos_of_active {tid : Nat} {t : Transaction}
    {l : List (Nat × Transaction)} (ht : alookup tid l = some t)
    (htact : t.status = .active) : 1 ≤ countStu t.student l := by
  unfold countStu
  exact countP_pos_of_alookup (isActiveForStudent t.student) ht
    (isActiveForStudent_iff.mpr ⟨rfl, htact⟩)

theorem studentConsistent_issueRoute (bid sid : Nat) (now : Int) {st : LibraryState}
    (hb : bookConsistent st) (hs : studentConsistent st) :
    studentConsistent (issueRoute bid sid now st).2 := by
  unfold issueRoute
  split
  · exact hs
  · rename_i b hbk
    split
    · exact hs
    · split
      · exact hs
      · rename_i hbact havail
        split
        · exact hs
        · rename_i s hstu
          split
          · exact hs
          · split
            · exact hs
            · split
              · exact hs
              · rename_i hsact hdup hquota
                dsimp only
                split
                · rename_i hov
                  exfalso
                  have hinv := hb bid b hbk
                  omega
                · rename_i hov
                  intro id ss0 hss
                  dsimp only at hss ⊢
                  by_cases hid : id = sid
                  · subst hid
                    rw [alookup_aupdate_self _ hstu] at hss
                    injection hss with hss2
                    subst hss2
                    have hsinv := hs id s hstu
                    have hnew : isActiveForStudent id
                        { book := bid, student := id, ttype := .issue,
                          issueDate := now, dueDate := now + 14 * dayMs,
                          returnDate := none, status := .active,
                          fine := { amount := 0, reason := .noneReason, paid := false },
                          renewalCount := 0 } = true := by
                      simp [isActiveForStudent]
                    unfold countStu
                    rw [countP_append_single, hnew, if_pos rfl]
                    dsimp only
                    unfold countStu at hsinv hquota
                    constructor
                    · omega
                    · omega
                  · have hsid : ¬ sid = id := fun hc => hid hc.symm
                    rw [alookup_aupdate_other _ hsid] at hss
                    have hsinv := hs id ss0 hss
                    have hnew : isActiveForStudent id
                        { book := bid, student := sid, ttype := .issue,
                          issueDate := now, dueDate := now + 14 * dayMs,
                          returnDate := none, status := .active,
                          fine := { amount := 0, reason := .noneReason, paid := false },
                          renewalCount := 0 } = false := by
                      simp [isActiveForStudent, hsid]
                    unfold countStu
                    rw [countP_append_single, hnew, if_neg (by decide)]
                    unfold countStu at hsinv
                    constructor
                    · omega
                    · omega

theorem studentConsistent_returnRoute (tid : Nat) (now : Int) {st : LibraryState}
    (hb : bookConsistent st) (hs : studentConsistent st) (hp : booksPresent st) :
    studentConsistent (returnRoute tid now st).2 := by
  unfold returnRoute
  split
  · exact hs
  · rename_i t ht
    split
    · exact hs
    · rename_i hact
      have htact : t.status = .active := not_not.mp hact
      dsimp only
      split
      · rename_i hbknone
        exfalso
        have hsome := hp tid t ht htact
        rw [hbknone] at hsome
        simp at hsome
      · rename_i b hbk
        split
        · rename_i hov
          exfalso
          have hinv := hb t.book b hbk
          have hone : 1 ≤ countBk t.book st.txns :=
            countP_pos_of_alookup (isActiveForBook t.book) ht
              (isActiveForBook_iff.mpr ⟨rfl, htact⟩)
          omega
        · rename_i hov
          split
          · rename_i hstunone
            intro id ss0 hss
            dsimp only at hss ⊢
            have hc := countStu_return_aupdate ht htact now id
            by_cases hid : t.student = id
            · exfalso
              rw [hid] at hstunone
              rw [hstunone] at hss
              cases hss
            · rw [if_neg hid] at hc
              have hsinv := hs id ss0 hss
              omega
          · rename_i s hstu
            split
            · rename_i hcur
              intro id ss0 hss
              dsimp only at hss ⊢
              have hc := countStu_return_aupdate ht htact now id
              by_cases hid : t.student = id
              · subst hid
                rw [alookup_aupdate_self _ hstu] at hss
                injection hss with hss2
                subst hss2
                have hsinv := hs t.student s hstu
                rw [if_pos rfl] at hc
                dsimp only
                omega
              · rw [alookup_aupdate_other _ hid] at hss
                rw [if_neg hid] at hc
                have hsinv := hs id ss0 hss
                omega
            · rename_i hcur
              exfalso
              have hsinv := hs t.student s hstu
              have hone := countStu_pos_of_active ht htact
              omega

theorem studentConsistent_renewRoute (tid : Nat) (now : Int) {st : LibraryState}
    (hs : studentConsistent st) : studentConsistent (renewRoute tid now st).2 := by
  unfold renewRoute
  split
  · exact hs
  · rename_i t ht
    split
    · exact hs
    · split
      · exact hs
      · dsimp only
        intro id ss0 hss
        dsimp only at hss ⊢
        have hsinv := hs id ss0 hss
        have hc := countP_aupdate (isActiveForStudent id)
          ({ t with renewalCount := t.renewalCount + 1, dueDate := now + 14 * dayMs }) ht
        have hsame : isActiveForStudent id
            { t with renewalCount := t.renewalCount + 1, dueDate := now + 14 * dayMs }
            = isActiveForStudent id t := rfl
        rw [hsame] at hc
        unfold countStu at hsinv ⊢
        omega

theorem booksPresent_append_core {st : LibraryState} (hp : booksPresent st)
    {nt : Transaction} {bk : Book} (hnt : alookup nt.book st.books = some bk)
    (bs : List (Nat × Book)) (ss : List (Nat × Student)) (nid nid2 : Nat)
    (hbs : ∀ k : Nat, (alookup k bs).isSome = (alookup k st.books).isSome) :
    booksPresent
      { books := bs, students := ss,
        txns := st.txns ++ [(nid, nt)], nextId := nid2 } := by
  intro id t2 ht2 hact2
  dsimp only at ht2 ⊢
  rw [hbs]
  cases ho : alookup id st.txns with
  | some w =>
    rw [alookup_append_of_some ho _ _] at ht2
    injection ht2 with h2
    subst h2
    exact hp id w ho hact2
  | none =>
    rw [alookup_append_of_none ho _ _] at ht2
    by_cases hn : nid = id
    · rw [if_pos hn] at ht2
      injection ht2 with h2
      subst h2
      rw [hnt]
      rfl
    · rw [if_neg hn] at ht2
      cases ht2

theorem booksPresent_issueRoute (bid sid : Nat) (now : Int) {st : LibraryState}
    (hp : booksPresent st) : booksPresent (issueRoute bid sid now st).2 := by
  unfold issueRoute
  split
  · exact hp
  · rename_i b hbk
    split
    · exact hp
    · split
      · exact hp
      · split
        · exact hp
        · rename_i s hstu
          split
          · exact hp
          · split
            · exact hp
            · split
              · exact hp
              · rename_i hsact hdup hquota
                dsimp only
                split
                · exact booksPresent_append_core hp hbk
                    st.books st.students st.nextId (st.nextId + 1) (fun k => rfl)
                · exact booksPresent_append_core hp hbk
                    _ _ st.nextId (st.nextId + 1)
                    (fun k => alookup_aupdate_isSome _ st.books)

theorem booksPresent_return_core {st : LibraryState} (hp : booksPresent st)
    {tid : Nat} {t : Transaction} (ht : alookup tid st.txns = some t) (now : Int)
    (bs : List (Nat × Book)) (ss : List (Nat × Student)) (nid : Nat)
    (hbs : ∀ k : Nat, (alookup k bs).isSome = (alookup k st.books).isSome) :
    booksPresent
      { books := bs, students := ss,
        txns := aupdate tid (calculateFine
          { t with ttype := .ret, returnDate := some now, status := .returned } now) st.txns,
        nextId := nid } := by
  intro id t2 ht2 hact2
  dsimp only at ht2 ⊢
  rw [hbs]
  by_cases hid : tid = id
  · subst hid
    rw [alookup_aupdate_self _ ht] at ht2
    injection ht2 with h2
    exfalso
    rw [← h2] at hact2
    rw [calculateFine_status] at hact2
    simp at hact2
  · rw [alookup_aupdate_other _ hid] at ht2
    exact hp id t2 ht2 hact2

theorem booksPresent_returnRoute (tid : Nat) (now : Int) {st : LibraryState}
    (hp : booksPresent st) : booksPresent (returnRoute tid now st).2 := by
  unfold returnRoute
  split
  · exact hp
  · rename_i t ht
    split
    · exact hp
    · rename_i hact
      dsimp only
      split
      · exact booksPresent_return_core hp ht now st.books st.students st.nextId (fun k => rfl)
      · rename_i b hbk
        split
        · exact booksPresent_return_core hp ht now st.books st.students st.nextId (fun k => rfl)
        · split
          · exact booksPresent_return_core hp ht now _ st.students st.nextId
              (fun k => alookup_aupdate_isSome _ st.books)
          · rename_i s hstu
            split
            · exact booksPresent_return_core hp ht now _ _ st.nextId
                (fun k => alookup_aupdate_isSome _ st.books)
            · exact booksPresent_return_core hp ht now _ st.students st.nextId
                (fun k => alookup_aupdate_isSome _ st.books)

theorem booksPresent_renewRoute (tid : Nat) (now : Int) {st : LibraryState}
    (hp : booksPresent st) : booksPresent (renewRoute tid now st).2 := by
  unfold renewRoute
  split
  · exact hp
  · rename_i t ht
    split
    · exact hp
    · rename_i hact
      split
      · exact hp
      · have htact : t.status = .active := not_not.mp hact
        dsimp only
        intro id t2 ht2 hact2
        dsimp only at ht2 ⊢
        by_cases hid : tid = id
        · subst hid
          rw [alookup_aupdate_self _ ht] at ht2
          injection ht2 with h2
          subst h2
          exact hp tid t ht htact
        · rw [alookup_aupdate_other _ hid] at ht2
          exact hp id t2 ht2 hact2

theorem consistent_issueRoute (bid sid : Nat) (now : Int) {st : LibraryState}
    (h : consistentState st) : consistentState (issueRoute bid sid now st).2 :=
  ⟨bookConsistent_issueRoute bid sid now h.1,
   studentConsistent_issueRoute bid sid now h.1 h.2.1,
   booksPresent_issueRoute bid sid now h.2.2⟩

theorem consistent_returnRoute (tid : Nat) (now : Int) {st : LibraryState}
    (h : consistentState st) : consistentState (returnRoute tid now st).2 :=
  ⟨bookConsistent_returnRoute tid now h.1,
   studentConsistent_returnRoute tid now h.1 h.2.1 h.2.2,
   booksPresent_returnRoute tid now h.2.2⟩

theorem consistent_renewRoute (tid : Nat) (now : Int) {st : LibraryState}
    (h : consistentState st) : consistentState (renewRoute tid now st).2 :=
  ⟨bookConsistent_renewRoute tid now h.1,
   studentConsistent_renewRoute tid now h.2.1,
   booksPresent_renewRoute tid now h.2.2⟩

theorem consistent_applyOp {op : Op} (hns : op.isSweep = false) {st : LibraryState}
    (h : consistentState st) : consistentState (applyOp st op) := by
  cases op with
  | issue b s now => exact consistent_issueRoute b s now h
  | ret id now => exact consistent_returnRoute id now h
  | renew id now => exact consistent_renewRoute id now h
  | sweep now => cases hns

theorem consistent_run {ops : List Op} (hns : ∀ o ∈ ops, o.isSweep = false)
    {st : LibraryState} (h : consistentState st) : consistentState (run st ops) := by
  induction ops generalizing st with
  | nil => exact h
  | cons op rest ih =>
    exact ih (fun o ho => hns o (List.mem_cons_of_mem _ ho))
      (consistent_applyOp (hns op (List.mem_cons_self _ _)) h)

/-! ### Consistent start states with no outstanding loans -/

theorem bookConsistent_of_no_txns (bs : List (Nat × Book))
    (ss : List (Nat × Student)) (n : Nat)
    (hb : ∀ e ∈ bs, 0 ≤ e.2.availableCopies ∧ e.2.availableCopies ≤ e.2.totalCopies) :
    bookConsistent { books := bs, students := ss, txns := [], nextId := n } := by
  intro id b hbb
  dsimp only at hbb
  have hmem := hb (id, b) (alookup_mem hbb)
  dsimp only at hmem
  rw [show countBk id ([] : List (Nat × Transaction)) = 0 from rfl]
  push_cast
  omega

theorem consistent_of_no_txns (bs : List (Nat × Book))
    (ss : List (Nat × Student)) (n : Nat)
    (hb : ∀ e ∈ bs, 0 ≤ e.2.availableCopies ∧ e.2.availableCopies ≤ e.2.totalCopies)
    (hs : ∀ e ∈ ss, e.2.currentBooksIssued = 0 ∧ e.2.currentBooksIssued ≤ e.2.maxBooksAllowed) :
    consistentState { books := bs, students := ss, txns := [], nextId := n } := by
  refine ⟨bookConsistent_of_no_txns bs ss n hb, ?_, ?_⟩
  · intro id s hss
    dsimp only at hss
    have hmem := hs (id, s) (alookup_mem hss)
    dsimp only at hmem
    rw [show countStu id ([] : List (Nat × Transaction)) = 0 from rfl]
    push_cast
    omega
  · intro id t ht _
    dsimp only at ht
    simp [alookup] at ht

/-! ### Concrete states used by the counterexamples and witnesses -/

/-- A loan already swept to `overdue` (due after 14 days, evaluated later). -/
def tOverdueC1 : Transaction :=
  { book := 0, student := 0, ttype := .issue, issueDate := 0, dueDate := 14 * dayMs,
    returnDate := none, status := .overdue,
    fine := { amount := 2, reason := .overdueReason, paid := false }, renewalCount := 0 }

/-- One book, one student, one overdue loan of that book by that student. -/
def stC1 : LibraryState :=
  { books := [(0, { totalCopies := 2, availableCopies := 1, isActive := true })],
    students := [(0, { status := .active, maxBooksAllowed := 3, currentBooksIssued := 1 })],
    txns := [(0, tOverdueC1)], nextId := 1 }

/-- A fresh active loan issued at time 0 (due after 14 days). -/
def tActW : Transaction :=
  { book := 0, student := 0, ttype := .issue, issueDate := 0, dueDate := 14 * dayMs,
    returnDate := none, status := .active,
    fine := { amount := 0, reason := .noneReason, paid := false }, renewalCount := 0 }

/-- One book, one student, one active loan. -/
def stC6 : LibraryState :=
  { books := [(0, { totalCopies := 2, availableCopies := 1, isActive := true })],
    students := [(0, { status := .active, maxBooksAllowed := 3, currentBooksIssued := 1 })],
    txns := [(0, tActW)], nextId := 1 }

/-- A loan returned 3 days late. -/
def tLateC5 : Transaction :=
  { book := 0, student := 0, ttype := .ret, issueDate := 0, dueDate := 14 * dayMs,
    returnDate := some (17 * dayMs), status := .returned,
    fine := { amount := 0, reason := .noneReason, paid := false }, renewalCount := 0 }

/-- A loan returned exactly on its due date. -/
def tOnTimeC5 : Transaction := { tLateC5 with returnDate := some (14 * dayMs) }

/-- Fresh catalog: one book with 2 copies, one student with quota 3. -/
def stW : LibraryState :=
  { books := [(0, { totalCopies := 2, availableCopies := 2, isActive := true })],
    students := [(0, { status := .active, maxBooksAllowed := 3, currentBooksIssued := 0 })],
    nextId := 0, txns := [] }

/-- Fresh catalog with a quota-1 student, used by the C3 counterexample. -/
def stC3 : LibraryState :=
  { books := [(0, { totalCopies := 2, availableCopies := 2, isActive := true })],
    students := [(0, { status := .active, maxBooksAllowed := 1, currentBooksIssued := 0 })],
    nextId := 0, txns := [] }

/-- Issue, let the loan lapse and sweep it to `overdue`, then issue again. -/
def opsC3 : List Op := [.issue 0 0 0, .sweep (15 * dayMs), .issue 0 0 (15 * dayMs)]

/-- The transaction update performed by a successful renew:
`renewalCount += 1`, `dueDate = now + 14 days`. -/
def renewedTxn (t : Transaction) (now : Int) : Transaction :=
  { t with renewalCount := t.renewalCount + 1, dueDate := now + 14 * dayMs }

/-! ### The claims -/

/-- C1 (code bug): the claim says `returnLoan` succeeds for every loan with
status `active` or `overdue`.  The route's query is
`findOne {_id, status: 'active'}`, so a loan already swept to `overdue` is
answered with 404 'Active transaction not found' and the state is unchanged:
an overdue loan can never be returned, its copy and membership slot are
never released. -/
theorem c1_overdue_loan_cannot_be_returned :
    returnRoute 0 (16 * dayMs) stC1 = (some .notFound, stC1) := by rfl

/-- C2 (code bug): the claim says a second issue of the same
(title, borrower) pair fails with DuplicateActiveLoan while the first loan
is `active` or `overdue`.  The duplicate guard is
`findOne {book, student, status: 'active'}`, so with the first loan
`overdue` the second issue succeeds and creates a second loan for the pair. -/
theorem c2_duplicate_issue_accepted_when_overdue :
    (issueRoute 0 0 (16 * dayMs) stC1).1 = none ∧
    ((issueRoute 0 0 (16 * dayMs) stC1).2).txns.length = 2 ∧
    hasActivePair 0 0 ((issueRoute 0 0 (16 * dayMs) stC1).2).txns = true := by
  refine ⟨rfl, rfl, rfl⟩

/-- C3 counterexample: from a consistent state (quota 1, no loans), the
sequence issue; sweep; issue drives `currentBooksIssued` to 2 > 1
= `maxBooksAllowed`, because the quota check counts only loans with status
`active` and the sweep moved the first loan to `overdue`. -/
theorem c3_counterexample :
    consistentState stC3 ∧
    alookup 0 (run stC3 opsC3).students
      = some { status := .active, maxBooksAllowed := 1, currentBooksIssued := 2 } :=
  ⟨consistent_of_no_txns _ _ _ (by decide) (by decide), by rfl⟩

/-- C3 (amended): for every sequence of issue and return (and renew)
operations — without the overdue sweep — applied from a consistent state,
every student's `currentBooksIssued` stays within `maxBooksAllowed`. -/
theorem c3_quota_bound_without_sweep (ops : List Op) (st : LibraryState)
    (hns : ∀ o ∈ ops, o.isSweep = false) (h : consistentState st) :
    ∀ id s, alookup id (run st ops).students = some s →
      s.currentBooksIssued ≤ s.maxBooksAllowed := by
  intro id s hs2
  exact ((consistent_run hns h).2.1 id s hs2).2

theorem c3_witness :
    ({ status := .active, maxBooksAllowed := 3, currentBooksIssued := 1 } : Student).currentBooksIssued
      ≤ ({ status := .active, maxBooksAllowed := 3, currentBooksIssued := 1 } : Student).maxBooksAllowed :=
  c3_quota_bound_without_sweep [Op.issue 0 0 0] stW (by decide)
    (consistent_of_no_txns _ _ _ (by decide) (by decide)) 0 _ (by rfl)

/-- C4: for every sequence of circulation events (issue, return, renew and
even the sweep) from a state satisfying the inventory-consistency
invariant, every book's `availableCopies` stays within
`0 ≤ availableCopies ≤ totalCopies`. -/
theorem c4_available_copies_bounds (ops : List Op) (st : LibraryState)
    (h : bookConsistent st) :
    ∀ id b, alookup id (run st ops).books = some b →
      0 ≤ b.availableCopies ∧ b.availableCopies ≤ b.totalCopies := by
  intro id b hb
  have hinv := bookConsistent_run ops h id b hb
  omega

theorem c4_witness :
    0 ≤ ({ totalCopies := 2, availableCopies := 1, isActive := true } : Book).availableCopies ∧
    ({ totalCopies := 2, availableCopies := 1, isActive := true } : Book).availableCopies
      ≤ ({ totalCopies := 2, availableCopies := 1, isActive := true } : Book).totalCopies :=
  c4_available_copies_bounds [Op.issue 0 0 0] stW
    (bookConsistent_of_no_txns _ _ _ (by decide)) 0 _ (by rfl)

/-- C5: at settlement (status `overdue` or `returned`, fine still at its
initial 0), `calculateFine` produces exactly
`max 0 (ceil((settlementDate - dueDate) / 1 day)) * ratePerDay`, where the
settlement date is the return date when set and the evaluation instant
otherwise. -/
theorem c5_fine_formula (t : Transaction) (now : Int)
    (h0 : t.fine.amount = 0)
    (hs : t.status = .overdue ∨ t.status = .returned) :
    (calculateFine t now).fine.amount
      = max 0 (ceilDays (settlementDate t now - t.dueDate)) * ratePerDay := by
  unfold calculateFine
  rw [if_pos hs]
  by_cases hd : 0 < ceilDays (settlementDate t now - t.dueDate)
  · rw [if_pos hd]
    dsimp only
    rw [max_eq_right (le_of_lt hd)]
  · rw [if_neg hd]
    rw [h0, max_eq_left (by omega : ceilDays (settlementDate t now - t.dueDate) ≤ 0)]
    simp

theorem c5_witness :
    (calculateFine tLateC5 (100 * dayMs)).fine.amount = 3 * ratePerDay ∧
    (calculateFine tOnTimeC5 (100 * dayMs)).fine.amount = 0 := by
  constructor
  · rw [c5_fine_formula tLateC5 (100 * dayMs) (by decide) (by decide)]
    decide
  · rw [c5_fine_formula tOnTimeC5 (100 * dayMs) (by decide) (by decide)]
    decide

/-- C6: a renew request succeeds exactly when the loan exists with status
`active` and `renewalCount < 3`; on success `renewalCount` increases by one
and `dueDate` becomes the renewal moment plus 14 days, everything else
untouched; every failing renew (including the fourth attempt,
`renewalCount = 3`) leaves the state unchanged. -/
theorem c6_renew_characterization (st : LibraryState) (tid : Nat) (now : Int) :
    ((renewRoute tid now st).1 = none ↔
       ∃ t, alookup tid st.txns = some t ∧ t.status = .active ∧ t.renewalCount < 3) ∧
    (∀ t, alookup tid st.txns = some t → t.status = .active → t.renewalCount < 3 →
       (renewRoute tid now st).2
         = { st with txns := aupdate tid (renewedTxn t now) st.txns }) ∧
    ((renewRoute tid now st).1 ≠ none → (renewRoute tid now st).2 = st) := by
  unfold renewRoute
  cases ht : alookup tid st.txns with
  | none =>
    dsimp only
    refine ⟨?_, ?_, ?_⟩
    · constructor
      · intro hc
        cases hc
      · rintro ⟨t, htt, -, -⟩
        cases htt
    · intro t htt hact2 hrc2
      cases htt
    · intro _
      rfl
  | some t =>
    dsimp only
    by_cases hact : t.status = .active
    · by_cases hrc : 3 ≤ t.renewalCount
      · rw [if_neg (not_not_intro hact), if_pos hrc]
        refine ⟨?_, ?_, ?_⟩
        · constructor
          · intro hc
            cases hc
          · rintro ⟨t2, htt, -, hrc2⟩
            injection htt with he
            subst he
            exact absurd hrc2 (not_lt.mpr hrc)
        · intro t2 htt hact2 hrc2
          injection htt with he
          subst he
          exact absurd hrc2 (not_lt.mpr hrc)
        · intro _
          rfl
      · rw [if_neg (not_not_intro hact), if_neg hrc]
        refine ⟨?_, ?_, ?_⟩
        · constructor
          · intro _
            exact ⟨t, rfl, hact, by omega⟩
          · intro _
            rfl
        · intro t2 htt hact2 hrc2
          injection htt with he
          subst he
          rfl
        · intro hc
          exact absurd rfl hc
    · rw [if_pos hact]
      refine ⟨?_, ?_, ?_⟩
      · constructor
        · intro hc
          cases hc
        · rintro ⟨t2, htt, hact2, -⟩
          injection htt with he
          subst he
          exact absurd hact2 hact
      · intro t2 htt hact2 hrc2
        injection htt with he
        subst he
        exact absurd hact2 hact
      · intro _
        rfl

theorem c6_witness :
    (renewRoute 0 (5 * dayMs) stC6).2
      = { stC6 with txns := aupdate 0 (renewedTxn tActW (5 * dayMs)) stC6.txns } :=
  (c6_renew_characterization stC6 0 (5 * dayMs)).2.1 tActW (by rfl) (by rfl) (by decide)

theorem calculateFine_overdue_amount {t : Transaction} (hs : t.status = .overdue)
    (hr : t.returnDate = none) {now : Int} (hd : t.dueDate < now) :
    (calculateFine t now).fine.amount = ceilDays (now - t.dueDate) * ratePerDay := by
  unfold calculateFine
  rw [if_pos (Or.inl hs)]
  have hsettle : settlementDate t now = now := by
    unfold settlementDate
    rw [hr]
    rfl
  rw [hsettle]
  have hpos : 0 < ceilDays (now - t.dueDate) := by
    have := ceilDays_pos (show (0:Int) < now - t.dueDate by omega)
    omega
  rw [if_pos hpos]

/-- C7: the overdue sweep leaves books and students untouched; a loan with
status `active` and `dueDate < now` is replaced by its swept version, whose
status is `overdue` and whose fine is recomputed to
`ceilDays (now - dueDate) * ratePerDay` (in particular `1 * ratePerDay`
when the due date lies exactly one day in the past); every other loan is
unchanged. -/
theorem c7_sweep_characterization (st : LibraryState) (now : Int) (id : Nat)
    (t : Transaction) (h : alookup id st.txns = some t) :
    ((sweepOverdue now st).books = st.books ∧ (sweepOverdue now st).students = st.students) ∧
    (t.status = .active → t.dueDate < now →
       alookup id (sweepOverdue now st).txns = some (sweepOne now t) ∧
       (sweepOne now t).status = .overdue ∧
       (t.returnDate = none →
          (sweepOne now t).fine.amount = ceilDays (now - t.dueDate) * ratePerDay) ∧
       (t.returnDate = none → t.dueDate = now - dayMs →
          (sweepOne now t).fine.amount = 1 * ratePerDay)) ∧
    (¬ (t.status = .active ∧ t.dueDate < now) →
       alookup id (sweepOverdue now st).txns = some t) := by
  have hco : ∀ (hact : t.status = .active) (hdue : t.dueDate < now),
      checkOverdue t now = { t with status := .overdue } := by
    intro hact hdue
    unfold checkOverdue
    rw [if_pos ⟨hact, hdue⟩]
  refine ⟨⟨rfl, rfl⟩, ?_, ?_⟩
  · intro hact hdue
    refine ⟨?_, ?_, ?_, ?_⟩
    · unfold sweepOverdue
      dsimp only
      rw [alookup_map_value, h]
      rfl
    · unfold sweepOne
      rw [if_pos ⟨hact, hdue⟩, hco hact hdue, calculateFine_status]
    · intro hrd
      unfold sweepOne
      rw [if_pos ⟨hact, hdue⟩, hco hact hdue]
      exact @calculateFine_overdue_amount { t with status := TxnStatus.overdue } rfl hrd now hdue
    · intro hrd hdd
      unfold sweepOne
      rw [if_pos ⟨hact, hdue⟩, hco hact hdue]
      rw [@calculateFine_overdue_amount { t with status := TxnStatus.overdue } rfl hrd now hdue]
      show ceilDays (now - t.dueDate) * ratePerDay = 1 * ratePerDay
      rw [hdd, show now - (now - dayMs) = dayMs by ring]
      decide
  · intro hng
    unfold sweepOverdue
    dsimp only
    rw [alookup_map_value, h]
    show some (sweepOne now t) = some t
    unfold sweepOne
    rw [if_neg hng]

/-- One book, one student, one active loan due exactly one day before the
sweep instant (`15 * dayMs`). -/
theorem c7_witness :
    (sweepOne (15 * dayMs) tActW).fine.amount = 1 * ratePerDay :=
  (((c7_sweep_characterization stC6 (15 * dayMs) 0 tActW (by rfl)).2.1
      (by decide) (by decide)).2.2.2) (by decide) (by decide)

/-- C8: every issue, return or renew request that ends in a business error
(NotFound covering the missing or not-active cases, OutOfStock,
DuplicateActiveLoan, QuotaExceeded, RenewalLimitReached — everything except
an internal `serverError`) leaves the whole state exactly as it was: no
book counter, student counter or loan record is mutated. -/
theorem c8_no_mutation_on_business_error (st : LibraryState)
    (bid sid tid : Nat) (now : Int) (e : ApiError) (hne : e ≠ .serverError) :
    ((issueRoute bid sid now st).1 = some e → (issueRoute bid sid now st).2 = st) ∧
    ((returnRoute tid now st).1 = some e → (returnRoute tid now st).2 = st) ∧
    ((renewRoute tid now st).1 = some e → (renewRoute tid now st).2 = st) := by
  refine ⟨?_, ?_, ?_⟩
  · unfold issueRoute
    split
    · intro _; rfl
    · split
      · intro _; rfl
      · split
        · intro _; rfl
        · split
          · intro _; rfl
          · split
            · intro _; rfl
            · split
              · intro _; rfl
              · split
                · intro _; rfl
                · dsimp only
                  split
                  · intro hh
                    injection hh with hh2
                    exact absurd hh2.symm hne
                  · intro hh
                    cases hh
  · unfold returnRoute
    split
    · intro _; rfl
    · split
      · intro _; rfl
      · dsimp only
        split
        · intro hh
          injection hh with hh2
          exact absurd hh2.symm hne
        · split
          · intro hh
            injection hh with hh2
            exact absurd hh2.symm hne
          · split
            · intro hh
              cases hh
            · split
              · intro hh
                cases hh
              · intro hh
                cases hh
  · unfold renewRoute
    split
    · intro _; rfl
    · split
      · intro _; rfl
      · split
        · intro _; rfl
        · intro hh
          cases hh

theorem c8_witness :
    (issueRoute 5 5 0 stW).2 = stW :=
  (c8_no_mutation_on_business_error stW 5 5 0 0 ApiError.notFound (by decide)).1 (by rfl)

/-- C9: `calculateFine` is idempotent — recomputing the fine of an already
recomputed transaction at the same instant changes nothing: the amount is
derived from `dueDate` and the settlement date from scratch, it never
accumulates. -/
theorem c9_calculate_fine_idempotent (t : Transaction) (now : Int) :
    calculateFine (calculateFine t now) now = calculateFine t now := by
  by_cases hcond : t.status = .overdue ∨ t.status = .returned
  · by_cases hd : 0 < ceilDays (settlementDate t now - t.dueDate)
    · obtain ⟨t1, h1⟩ : ∃ t1, calculateFine t now = t1 := ⟨_, rfl⟩
      have hstat1 : t1.status = t.status := by
        rw [← h1]
        exact calculateFine_status t now
      have hdue1 : t1.dueDate = t.dueDate := by
        rw [← h1]
        exact calculateFine_dueDate t now
      have hret1 : t1.returnDate = t.returnDate := by
        rw [← h1]
        exact calculateFine_returnDate t now
      have hsettle1 : settlementDate t1 now = settlementDate t now := by
        unfold settlementDate
        rw [hret1]
      have hfine1 : t1.fine
          = { amount := ceilDays (settlementDate t now - t.dueDate) * ratePerDay,
              reason := FineReason.overdueReason, paid := t.fine.paid } := by
        rw [← h1]
        unfold calculateFine
        rw [if_pos hcond, if_pos hd]
      rw [h1]
      unfold calculateFine
      rw [hstat1, hsettle1, hdue1, if_pos hcond, if_pos hd]
      have hsame : { t1.fine with
          amount := ceilDays (settlementDate t now - t.dueDate) * ratePerDay,
          reason := FineReason.overdueReason } = t1.fine := by
        rw [hfine1]
      rw [hsame, ← hstat1, ← hdue1]
    · have h1 : calculateFine t now = t := by
        unfold calculateFine
        rw [if_pos hcond, if_neg hd]
      rw [h1]
      exact h1
  · have h1 : calculateFine t now = t := by
      unfold calculateFine
      rw [if_neg hcond]
    rw [h1]
    exact h1

/-- C10: `calculateFine` never clears an accrued fine: it is the identity
when the status is neither `overdue` nor `returned`, and also when the
settlement date is on or before the due date (so a fine accrued earlier is
retained after a renewal pushed `dueDate` into the future); a successful
renew stores the loan with its fine sub-record untouched; and for an
unreturned loan whose amount is bounded by the amount owed at an earlier
instant, recomputing at any later instant never yields a smaller amount. -/
theorem c10_fine_retention :
    (∀ (t : Transaction) (now : Int), ¬ t.status = .overdue → ¬ t.status = .returned →
       calculateFine t now = t) ∧
    (∀ (t : Transaction) (now : Int), settlementDate t now ≤ t.dueDate →
       calculateFine t now = t) ∧
    (∀ (st : LibraryState) (tid : Nat) (now : Int) (t : Transaction),
       alookup tid st.txns = some t → t.status = .active → t.renewalCount < 3 →
       alookup tid ((renewRoute tid now st).2).txns = some (renewedTxn t now) ∧
       (renewedTxn t now).fine = t.fine) ∧
    (∀ (t : Transaction) (n1 n2 : Int), t.returnDate = none → n1 ≤ n2 →
       t.fine.amount ≤ max 0 (ceilDays (n1 - t.dueDate)) * ratePerDay →
       t.fine.amount ≤ (calculateFine t n2).fine.amount) := by
  refine ⟨?_, ?_, ?_, ?_⟩
  · intro t now h1 h2
    have hcond : ¬ (t.status = .overdue ∨ t.status = .returned) := by
      rintro (hc | hc)
      · exact h1 hc
      · exact h2 hc
    unfold calculateFine
    rw [if_neg hcond]
  · intro t now hle
    unfold calculateFine
    split
    · have hnp : ceilDays (settlementDate t now - t.dueDate) ≤ 0 :=
        ceilDays_nonpos (by omega)
      rw [if_neg (by omega)]
    · rfl
  · intro st tid now t ht hact hrc
    constructor
    · unfold renewRoute
      rw [ht]
      dsimp only
      rw [if_neg (not_not_intro hact), if_neg (by omega : ¬ 3 ≤ t.renewalCount)]
      dsimp only
      exact alookup_aupdate_self _ ht
    · rfl
  · intro t n1 n2 hrd hle hbound
    by_cases hcond : t.status = .overdue ∨ t.status = .returned
    · have hsettle : settlementDate t n2 = n2 := by
        unfold settlementDate
        rw [hrd]
        rfl
      unfold calculateFine
      rw [if_pos hcond, hsettle]
      by_cases hd2 : 0 < ceilDays (n2 - t.dueDate)
      · rw [if_pos hd2]
        dsimp only
        have hmono : ceilDays (n1 - t.dueDate) ≤ ceilDays (n2 - t.dueDate) :=
          ceilDays_mono (by omega)
        calc t.fine.amount
            ≤ max 0 (ceilDays (n1 - t.dueDate)) * ratePerDay := hbound
          _ ≤ ceilDays (n2 - t.dueDate) * ratePerDay := by
              have hmax : max 0 (ceilDays (n1 - t.dueDate)) ≤ ceilDays (n2 - t.dueDate) :=
                max_le (le_of_lt hd2) hmono
              exact mul_le_mul_of_nonneg_right hmax (by decide)
      · rw [if_neg hd2]
    · unfold calculateFine
      rw [if_neg hcond]

theorem c10_witness :
    calculateFine tActW 0 = tActW ∧
    tOverdueC1.fine.amount ≤ (calculateFine tOverdueC1 (16 * dayMs)).fine.amount :=
  ⟨c10_fine_retention.1 tActW 0 (by decide) (by decide),
   c10_fine_retention.2.2.2 tOverdueC1 (15 * dayMs) (16 * dayMs)
     (by rfl) (by decide) (by decide)⟩

end LibraryCirculation
